import Mathlib

/-!
Verification development for the naca-rss-feeds Feed Refresh & Deduplication
Engine.  The Go source is shallowly embedded: the PostgreSQL tables
(`feeds`, `processed_items`) become Lean lists, the SQL statements of
`internal/repository/postgresql/postgresql.go` become pure functions on those
lists, and the orchestrator `rssFeedsProcessor` of
`internal/messaging/feeds_processor.go` becomes a function from an explicit
environment (HTTP response, fault injections) and store state to a result,
a new state and a trace of external calls.
-/

namespace RSSFeeds

/-- Publication UUIDs are opaque identifiers; only equality is used. -/
abbrev UUID := Nat

/-- Values of `time.Time` are compared for equality and carried around; we model
an instant as a natural number, with `0` playing the role of Go's zero
`time.Time` (the value `time.Time\x7b\x7d` used by the repository's COALESCE). -/
abbrev Time := Nat

abbrev GUID := String

/-- entity.ProcessedItem (internal/entity/processedItem.go). -/
structure ProcessedItem where
  guid : GUID
  publicationUUID : UUID
  publicationDate : Time
deriving DecidableEq, Repr

/-- One row of the `feeds` table (migrations 001_initial.sql): the `etag` and
`last_modified` columns are nullable, hence `Option`. -/
structure FeedRow where
  publicationUUID : UUID
  url : String
  languageCode : String
  lastModified : Option Time
  etag : Option String
deriving DecidableEq, Repr

/-- entity.Feed (internal/entity/feed.go). -/
structure Feed where
  publicationUUID : UUID
  url : String
  languageCode : String
deriving DecidableEq, Repr

/-- entity.FeedHTTPMetadata (internal/entity/feed.go). -/
structure FeedHTTPMetadata where
  publicationUUID : UUID
  etag : String
  lastModified : Time
deriving DecidableEq, Repr

/-- The two persistent tables of the schema. -/
structure StoreState where
  feeds : List FeedRow
  processedItems : List ProcessedItem
deriving DecidableEq, Repr

/-- Repository.ProcessedItemExists:
`select exists (select 1 from processed_items where (guid=$1 AND
feeds_publication_uuid=$2 AND pubDate=$3))`. -/
def processedItemExists (tbl : List ProcessedItem) (i : ProcessedItem) : Bool :=
  tbl.any fun r =>
    r.guid == i.guid && r.publicationUUID == i.publicationUUID &&
      r.publicationDate == i.publicationDate

/-- Repository.SaveProcessedItem:
`INSERT INTO processed_items (guid, feeds_publication_uuid, pubDate) VALUES
($1, $2, $3) ON CONFLICT (guid) DO UPDATE SET pubDate=EXCLUDED.pubDate`.
`guid` is the table's PRIMARY KEY, so the conflict target is the guid alone:
on conflict only the `pubDate` column of the existing row is rewritten. -/
def saveProcessedItem (tbl : List ProcessedItem) (i : ProcessedItem) :
    List ProcessedItem :=
  if tbl.any (fun r => r.guid == i.guid) then
    tbl.map fun r =>
      if r.guid == i.guid then { r with publicationDate := i.publicationDate } else r
  else
    tbl ++ [i]

/-- Row lookup `WHERE publication_uuid=$1` shared by the feed queries. -/
def findFeedRow (feeds : List FeedRow) (u : UUID) : Option FeedRow :=
  feeds.find? fun r => r.publicationUUID == u

/-- Repository.GetByPublicationUUID:
`select publication_uuid, url, language_code from feeds where
publication_uuid=$1`; `pgx.ErrNoRows` is mapped to `(nil, nil)`, i.e. `none`. -/
def getByPublicationUUID (feeds : List FeedRow) (u : UUID) : Option Feed :=
  (findFeedRow feeds u).map fun r => ⟨r.publicationUUID, r.url, r.languageCode⟩

/-- Repository.GetFeedHTTPMetadataByPublicationUUID:
`SELECT publication_uuid, COALESCE(etag, 'noetag'), COALESCE(last_modified,$2)
FROM feeds WHERE publication_uuid=$1` with `$2 = time.Time\x7b\x7d`.
A NULL etag column is surfaced as the sentinel string "noetag", a NULL
last_modified as the zero time. -/
def getFeedHTTPMetadataByPublicationUUID (feeds : List FeedRow) (u : UUID) :
    Option FeedHTTPMetadata :=
  (findFeedRow feeds u).map fun r =>
    ⟨r.publicationUUID, r.etag.getD "noetag", r.lastModified.getD 0⟩

/-- Repository.SaveFeedHTTPMetadata:
`update feeds set etag=$1, last_modified=$2 where publication_uuid=$3`.
Both columns are written with the (non-NULL) values carried by `m`. -/
def saveFeedHTTPMetadata (feeds : List FeedRow) (m : FeedHTTPMetadata) :
    List FeedRow :=
  feeds.map fun r =>
    if r.publicationUUID == m.publicationUUID then
      { r with etag := some m.etag, lastModified := some m.lastModified }
    else r

/-- Repository.GetAll: `select publication_uuid, url, language_code from feeds`. -/
def getAllFeeds (feeds : List FeedRow) : List Feed :=
  feeds.map fun r => ⟨r.publicationUUID, r.url, r.languageCode⟩

/-! ### Conditional fetch client (`readFeedFromURL`) -/

/-- One parsed feed item as delivered by the external gofeed parser;
`publishedParsed` / `updatedParsed` are `nil`-able, hence `Option`. -/
structure Item where
  guid : GUID
  title : String
  description : String
  content : String
  link : String
  publishedParsed : Option Time
  updatedParsed : Option Time
deriving DecidableEq, Repr

/-- Result of the external `gofeed.NewParser().Parse` call on the response
body (out of scope per the spec: a black box returning items or an error). -/
inductive ParseResult where
  | parseError
  | parsed (items : List Item)
deriving DecidableEq, Repr

/-- The HTTP world seen by one `client.Do(req)` call: either a transport
error, or a response with a status code, a body (already pushed through the
external parser), an `Etag` header (`Header.Get` yields "" when absent) and a
`Last-Modified` header (`none` = absent; `some none` = present but not
parseable as RFC1123; `some (some t)` = parses to instant `t`). -/
inductive HTTPWorld where
  | transportError
  | response (status : Nat) (body : ParseResult)
      (etagHeader : String) (lastModifiedHeader : Option (Option Time))
deriving DecidableEq, Repr

/-- The RSSFeed struct built by `readFeedFromURL`: parsed items plus the
response's own cache validators (zero-valued when the headers are absent). -/
structure RSSFeed where
  items : List Item
  etag : String
  lastModified : Time
deriving DecidableEq, Repr

inductive FetchError where
  | transport
  | notModified
  | httpStatus (code : Nat)
  | parseFailure
deriving DecidableEq, Repr

inductive FetchOutcome where
  | ok (feed : RSSFeed)
  | fail (e : FetchError)
deriving DecidableEq, Repr

/-- Models `if etag != "" \x7b req.Header.Set("If-None-Match", etag) \x7d`:
the conditional validator header is set exactly when `etag` is non-empty. -/
def ifNoneMatchHeader (etag : String) : Option String :=
  if etag != "" then some etag else none

/-- rssFeedsProcessor.readFeedFromURL: status 304 becomes `ErrNotModified`;
any other non-2xx becomes an HTTP status error; on 2xx the body is parsed and
the response's Etag / Last-Modified headers become the new validators
(`RSSFeed\x7b\x7d` starts zero-valued, each field is set only when the
corresponding header is present — and, for Last-Modified, parseable). -/
def readFeedFromURL (http : HTTPWorld) : FetchOutcome :=
  match http with
  | .transportError => .fail .transport
  | .response status body etagHeader lmHeader =>
    if status == 304 then .fail .notModified
    else if status < 200 || 300 ≤ status then .fail (.httpStatus status)
    else
      match body with
      | .parseError => .fail .parseFailure
      | .parsed items =>
        let e := if etagHeader != "" then etagHeader else ""
        let lm : Time :=
          match lmHeader with
          | some (some t) => t
          | _ => 0
        .ok ⟨items, e, lm⟩

/-! ### Feed refresh orchestrator (`refreshFeed`, `refreshAllFeeds`, `Process`)

External calls are recorded in a trace of `Effect`s; failures of the
collaborators (repository transport errors, downstream publish failures,
store-write failures) are injected through a `Faults` record, indexed for the
per-item calls by the item's position in the fetched list. -/

inductive Effect where
  | getFeed (u : UUID)
  | getMetadata (u : UUID)
  | getAllFeedsCall
  | fetchCall (url : String) (ifNoneMatch : Option String) (ifModifiedSince : Time)
  | existsQuery (i : ProcessedItem)
  | publishItem (u : UUID) (title description content link languageCode : String)
      (published : Time)
  | saveItem (i : ProcessedItem)
  | saveMetadata (m : FeedHTTPMetadata)
  | sendUpdateOne (u : UUID)
deriving DecidableEq, Repr

/-- Store-mutating calls: SaveProcessedItem and SaveFeedHTTPMetadata. -/
def Effect.isStoreWrite : Effect → Bool
  | .saveItem _ => true
  | .saveMetadata _ => true
  | _ => false

/-- Downstream `PublishNewItem` calls. -/
def Effect.isPublish : Effect → Bool
  | .publishItem .. => true
  | _ => false

/-- Fault injection for the collaborators: a `true` flag makes the
corresponding external call return an error. Per-item calls are indexed by
the item's position in the fetched list. -/
structure Faults where
  getFeedFault : Bool
  getMetadataFault : Bool
  getAllFault : Bool
  existsFault : Nat → Bool
  publishFault : Nat → Bool
  saveItemFault : Nat → Bool
  saveMetadataFault : Bool

/-- The all-healthy environment. -/
def noFaults : Faults :=
  ⟨false, false, false, fun _ => false, fun _ => false, fun _ => false, false⟩

inductive RefreshError where
  | repoGetFeed
  | feedNotFound
  | repoGetMetadata
  | metadataNotFound
  | fetchFailed (e : FetchError)
  | repoGetAll
  | noFeeds
  | saveMetadataFailed
deriving DecidableEq, Repr

inductive RefreshResult where
  | ok
  | err (e : RefreshError)
deriving DecidableEq, Repr

structure RefreshOutcome where
  result : RefreshResult
  state : StoreState
  effects : List Effect
deriving DecidableEq, Repr

/-- The effective publication timestamp of an item
(feeds_processor.go, refreshFeed entry loop): `PublishedParsed` when present,
otherwise `UpdatedParsed`, otherwise none (the item is skipped). -/
def effectivePublished (item : Item) : Option Time :=
  match item.publishedParsed with
  | some t => some t
  | none =>
    match item.updatedParsed with
    | some t => some t
    | none => none

/-- One iteration of the entry loop of `refreshFeed`: returns the updated
`processed_items` table and the external calls made for this item.  Every
failure path `continue`s, i.e. leaves the table unchanged. -/
def processItem (flt : Faults) (feed : Feed) (idx : Nat) (item : Item)
    (tbl : List ProcessedItem) : List ProcessedItem × List Effect :=
  match effectivePublished item with
  | none => (tbl, [])
  | some pub =>
    let p : ProcessedItem := ⟨item.guid, feed.publicationUUID, pub⟩
    if flt.existsFault idx then (tbl, [.existsQuery p])
    else if processedItemExists tbl p then (tbl, [.existsQuery p])
    else
      let pubEff := Effect.publishItem feed.publicationUUID item.title
        item.description item.content item.link feed.languageCode pub
      if flt.publishFault idx then (tbl, [.existsQuery p, pubEff])
      else if flt.saveItemFault idx then (tbl, [.existsQuery p, pubEff, .saveItem p])
      else (saveProcessedItem tbl p, [.existsQuery p, pubEff, .saveItem p])

/-- The entry loop of `refreshFeed`, items processed in received order. -/
def processItems (flt : Faults) (feed : Feed) (items : List Item) (idx : Nat)
    (tbl : List ProcessedItem) : List ProcessedItem × List Effect :=
  match items with
  | [] => (tbl, [])
  | item :: rest =>
    let step := processItem flt feed idx item tbl
    let next := processItems flt feed rest (idx + 1) step.1
    (next.1, step.2 ++ next.2)

/-- rssFeedsProcessor.refreshFeed: load Feed and FeedHTTPMetadata (either
missing or erroring aborts), conditional fetch (`ErrNotModified` is a
successful no-op, other fetch errors abort), per-entry diff/forward/save
loop, then unconditionally `SaveFeedHTTPMetadata` with the validators
returned by the fetch (its failure is the overall error). -/
def refreshFeed (flt : Faults) (http : HTTPWorld) (st : StoreState) (u : UUID) :
    RefreshOutcome :=
  if flt.getFeedFault then ⟨.err .repoGetFeed, st, [.getFeed u]⟩
  else
    match getByPublicationUUID st.feeds u with
    | none => ⟨.err .feedNotFound, st, [.getFeed u]⟩
    | some dbFeed =>
      if flt.getMetadataFault then ⟨.err .repoGetMetadata, st, [.getFeed u, .getMetadata u]⟩
      else
        match getFeedHTTPMetadataByPublicationUUID st.feeds u with
        | none => ⟨.err .metadataNotFound, st, [.getFeed u, .getMetadata u]⟩
        | some dbMeta =>
          let fetchEff := Effect.fetchCall dbFeed.url (ifNoneMatchHeader dbMeta.etag)
            dbMeta.lastModified
          match readFeedFromURL http with
          | .fail .notModified => ⟨.ok, st, [.getFeed u, .getMetadata u, fetchEff]⟩
          | .fail e => ⟨.err (.fetchFailed e), st, [.getFeed u, .getMetadata u, fetchEff]⟩
          | .ok feed =>
            let loop := processItems flt dbFeed feed.items 0 st.processedItems
            let newMeta : FeedHTTPMetadata :=
              ⟨dbMeta.publicationUUID, feed.etag, feed.lastModified⟩
            let effs := [.getFeed u, .getMetadata u, fetchEff] ++ loop.2 ++
              [.saveMetadata newMeta]
            if flt.saveMetadataFault then
              ⟨.err .saveMetadataFailed, ⟨st.feeds, loop.1⟩, effs⟩
            else
              ⟨.ok, ⟨saveFeedHTTPMetadata st.feeds newMeta, loop.1⟩, effs⟩

/-- rssFeedsProcessor.refreshAllFeeds: list all feeds (an error or an empty
result aborts), then publish one RefreshOne command per feed; per-feed
publish failures are logged and do not stop the fan-out. -/
def refreshAllFeeds (flt : Faults) (st : StoreState) : RefreshOutcome :=
  if flt.getAllFault then ⟨.err .repoGetAll, st, [.getAllFeedsCall]⟩
  else
    let feeds := getAllFeeds st.feeds
    if feeds.isEmpty then ⟨.err .noFeeds, st, [.getAllFeedsCall]⟩
    else
      ⟨.ok, st, .getAllFeedsCall :: feeds.map fun f => .sendUpdateOne f.publicationUUID⟩

/-! ### Message envelope decode and dispatch (`Process`) -/

/-- MessageType constants (messaging, `iota`): FeedsUpdateOne = 0,
FeedsUpdateAll = 1. -/
def FeedsUpdateOne : Nat := 0

def FeedsUpdateAll : Nat := 1

/-- Result of unmarshalling the raw `Msg` payload as `FeedsUpdateOneMsg`:
either a JSON failure, or a decoded `publication_uuid`. -/
inductive PayloadDecode where
  | failure
  | oneMsg (u : UUID)
deriving DecidableEq, Repr

/-- The incoming message bytes, abstracted to the outcome of
`json.Unmarshal(data, &message)` on the `MessageEnvelope` shape: either the
outer unmarshal fails, or it succeeds with an optional `type` field (Go's
`encoding/json` leaves `Type` at its zero value when the field is absent)
and the raw payload. -/
inductive EnvelopeBytes where
  | malformed
  | wellFormed (typeField : Option Nat) (payload : PayloadDecode)
deriving DecidableEq, Repr

inductive ProcessError where
  | malformedEnvelope
  | payloadDecodeFailure
  | unknownKind (k : Nat)
  | refreshErr (e : RefreshError)
deriving DecidableEq, Repr

inductive ProcessResult where
  | ok
  | err (e : ProcessError)
deriving DecidableEq, Repr

structure ProcessOutcome where
  result : ProcessResult
  state : StoreState
  effects : List Effect
deriving DecidableEq, Repr

def liftRefresh : RefreshResult → ProcessResult
  | .ok => .ok
  | .err e => .err (.refreshErr e)

/-- rssFeedsProcessor.Process: unmarshal the envelope (failure is returned),
read the kind tag (absent field = zero value = FeedsUpdateOne), and switch:
FeedsUpdateOne unmarshals the payload (failure is returned) and refreshes
that feed, FeedsUpdateAll fans out, any other kind value returns the
"Undefined message type" error with no side effects. -/
def Process (flt : Faults) (http : HTTPWorld) (st : StoreState)
    (data : EnvelopeBytes) : ProcessOutcome :=
  match data with
  | .malformed => ⟨.err .malformedEnvelope, st, []⟩
  | .wellFormed typeField payload =>
    let t := typeField.getD 0
    if t == FeedsUpdateOne then
      match payload with
      | .failure => ⟨.err .payloadDecodeFailure, st, []⟩
      | .oneMsg u =>
        let o := refreshFeed flt http st u
        ⟨liftRefresh o.result, o.state, o.effects⟩
    else if t == FeedsUpdateAll then
      let o := refreshAllFeeds flt st
      ⟨liftRefresh o.result, o.state, o.effects⟩
    else ⟨.err (.unknownKind t), st, []⟩

/-! ### Shared helper lemmas about the `processed_items` upsert -/

/-- The schema invariant: `guid` is the PRIMARY KEY of `processed_items`,
so any realizable table has pairwise distinct guids. -/
def guidUnique (tbl : List ProcessedItem) : Prop :=
  tbl.Pairwise fun a b => a.guid ≠ b.guid

theorem filter_other_guid_map (tbl : List ProcessedItem) (i : ProcessedItem) :
    ((tbl.map fun r =>
        if r.guid == i.guid then { r with publicationDate := i.publicationDate } else r).filter
      fun r => r.guid != i.guid) =
      tbl.filter fun r => r.guid != i.guid := by
  rw [List.filter_map]
  have h1 : (tbl.filter ((fun r => r.guid != i.guid) ∘ fun r =>
      if r.guid == i.guid then { r with publicationDate := i.publicationDate } else r)) =
      tbl.filter fun r => r.guid != i.guid := by
    apply List.filter_congr
    intro a _
    by_cases ha : a.guid = i.guid <;> simp [ha]
  rw [h1]
  have h2 : ∀ a ∈ tbl.filter (fun r => r.guid != i.guid),
      (if a.guid == i.guid then
        ({ a with publicationDate := i.publicationDate } : ProcessedItem) else a) = id a := by
    intro a ha
    have hq := (List.mem_filter.mp ha).2
    rw [if_neg (by simpa using hq)]
    rfl
  rw [List.map_congr_left h2, List.map_id]

theorem save_dates (tbl : List ProcessedItem) (i : ProcessedItem) :
    ∀ r ∈ saveProcessedItem tbl i, r.guid = i.guid →
      r.publicationDate = i.publicationDate := by
  intro r hr hguid
  unfold saveProcessedItem at hr
  by_cases h : (tbl.any fun r => r.guid == i.guid) = true
  · rw [if_pos h] at hr
    obtain ⟨a, _, rfl⟩ := List.mem_map.mp hr
    by_cases ha : a.guid = i.guid
    · simp [ha]
    · simp [ha] at hguid
  · rw [if_neg h] at hr
    have h' : ∀ r ∈ tbl, ¬ r.guid = i.guid := by simpa using h
    rcases List.mem_append.mp hr with hmem | hmem
    · exact absurd hguid (h' r hmem)
    · simp at hmem
      subst hmem
      rfl

theorem save_keeps_other (tbl : List ProcessedItem) (i : ProcessedItem) :
    ((saveProcessedItem tbl i).filter fun r => r.guid != i.guid) =
      tbl.filter fun r => r.guid != i.guid := by
  unfold saveProcessedItem
  by_cases h : tbl.any fun r => r.guid == i.guid
  · rw [if_pos h]
    exact filter_other_guid_map tbl i
  · rw [if_neg h, List.filter_append]
    simp

theorem save_mem_update (tbl : List ProcessedItem) (i : ProcessedItem) :
    ∀ r ∈ tbl, r.guid = i.guid →
      ({ r with publicationDate := i.publicationDate } : ProcessedItem) ∈
        saveProcessedItem tbl i := by
  intro r hr hguid
  unfold saveProcessedItem
  have hany : (tbl.any fun a => a.guid == i.guid) = true :=
    List.any_eq_true.mpr ⟨r, hr, by simpa using hguid⟩
  rw [if_pos hany]
  have : ({ r with publicationDate := i.publicationDate } : ProcessedItem) =
      if r.guid == i.guid then { r with publicationDate := i.publicationDate } else r := by
    simp [hguid]
  rw [this]
  exact List.mem_map_of_mem _ hr

theorem save_length (tbl : List ProcessedItem) (i : ProcessedItem) :
    (saveProcessedItem tbl i).length =
      if tbl.any (fun r => r.guid == i.guid) then tbl.length else tbl.length + 1 := by
  unfold saveProcessedItem
  by_cases h : tbl.any fun r => r.guid == i.guid <;> simp [h]

theorem save_countP (tbl : List ProcessedItem) (i : ProcessedItem) :
    (saveProcessedItem tbl i).countP (fun r => r.guid == i.guid) =
      max (tbl.countP fun r => r.guid == i.guid) 1 := by
  unfold saveProcessedItem
  by_cases h : (tbl.any fun r => r.guid == i.guid) = true
  · rw [if_pos h, List.countP_map]
    have hcong : (tbl.countP
        ((fun r => r.guid == i.guid) ∘ fun r =>
          if r.guid == i.guid then { r with publicationDate := i.publicationDate } else r)) =
        tbl.countP fun r => r.guid == i.guid := by
      apply List.countP_congr
      intro a _
      by_cases ha : a.guid = i.guid <;> simp [ha]
    rw [hcong]
    have hpos : 0 < tbl.countP fun r => r.guid == i.guid := by
      rw [List.countP_pos_iff]
      obtain ⟨a, ha, hga⟩ := List.any_eq_true.mp h
      exact ⟨a, ha, hga⟩
    omega
  · rw [if_neg h, List.countP_append]
    have h' : ∀ r ∈ tbl, ¬ r.guid = i.guid := by simpa using h
    have h0 : (tbl.countP fun r => r.guid == i.guid) = 0 := by
      rw [List.countP_eq_zero]
      intro a ha
      simpa using h' a ha
    simp [h0, List.countP_cons]

theorem countP_guid_le_one (tbl : List ProcessedItem) (g : GUID)
    (h : guidUnique tbl) :
    (tbl.countP fun r => r.guid == g) ≤ 1 := by
  induction tbl with
  | nil => simp
  | cons a rest ih =>
    unfold guidUnique at h
    rw [List.pairwise_cons] at h
    rw [List.countP_cons]
    by_cases ha : a.guid = g
    · have h0 : (rest.countP fun r => r.guid == g) = 0 := by
        rw [List.countP_eq_zero]
        intro b hb
        have hne : a.guid ≠ b.guid := h.1 b hb
        simp only [beq_iff_eq, Bool.not_eq_true]
        intro hbg
        exact hne (by rw [ha, hbg])
      simp [h0, ha]
    · simpa [ha] using ih h.2

theorem save_fresh (tbl : List ProcessedItem) (i : ProcessedItem)
    (h : ∀ r ∈ tbl, r.guid ≠ i.guid) :
    saveProcessedItem tbl i = tbl ++ [i] := by
  unfold saveProcessedItem
  rw [if_neg (by simpa using h)]

theorem map_update_fresh (tbl : List ProcessedItem) (g : GUID) (u : UUID)
    (d1 d2 : Time) (h : ∀ r ∈ tbl, r.guid ≠ g) :
    ((tbl ++ [(⟨g, u, d1⟩ : ProcessedItem)]).map fun r =>
        if r.guid == g then { r with publicationDate := d2 } else r) =
      tbl ++ [(⟨g, u, d2⟩ : ProcessedItem)] := by
  rw [List.map_append]
  congr 1
  · induction tbl with
    | nil => rfl
    | cons a rest ih =>
      have ha : ¬ a.guid = g := h a (by simp)
      simp only [List.map_cons]
      rw [if_neg (by simpa using ha)]
      rw [ih fun r hr => h r (by simp [hr])]
  · simp

theorem saveFeedHTTPMetadata_sets (feeds : List FeedRow) (m : FeedHTTPMetadata) :
    ∀ r ∈ saveFeedHTTPMetadata feeds m, r.publicationUUID = m.publicationUUID →
      r.etag = some m.etag ∧ r.lastModified = some m.lastModified := by
  intro r hr hru
  unfold saveFeedHTTPMetadata at hr
  obtain ⟨a, ha, hfa⟩ := List.mem_map.mp hr
  by_cases hau : a.publicationUUID = m.publicationUUID
  · rw [if_pos (by simpa using hau)] at hfa
    rw [← hfa]
    exact ⟨rfl, rfl⟩
  · rw [if_neg (by simpa using hau)] at hfa
    subst hfa
    exact absurd hru hau

/-! ### Claim theorems -/

/-- C1 counterexample: two `ProcessedItemExists` queries agreeing on guid and
publication UUID but differing in publication_date get different answers; an
entry stored under the same `(guid, feedID)` with a different stored
publication_date is reported as NOT existing (the SQL predicate also matches
`pubDate`). -/
theorem processedItemExists_date_sensitive_cex :
    processedItemExists [⟨"g1", 7, 100⟩] ⟨"g1", 7, 100⟩ = true ∧
    processedItemExists [⟨"g1", 7, 100⟩] ⟨"g1", 7, 200⟩ = false := by decide

/-- C1 (amended): the duplicate check is keyed by the full triple
`(guid, feedID, publication_date)`: `ProcessedItemExists` answers true exactly
when some stored row matches all three fields, and an entry stored under the
same `(guid, feedID)` with a different stored publication_date is reported as
not existing. -/
theorem processedItemExists_triple_key (tbl : List ProcessedItem) (i : ProcessedItem)
    (g : GUID) (u : UUID) (d d' : Time) (h : d ≠ d') :
    (processedItemExists tbl i = true ↔
      ∃ r ∈ tbl, r.guid = i.guid ∧ r.publicationUUID = i.publicationUUID ∧
        r.publicationDate = i.publicationDate) ∧
    processedItemExists [⟨g, u, d⟩] ⟨g, u, d'⟩ = false := by
  constructor
  · simp [processedItemExists, List.any_eq_true, and_assoc]
  · simp [processedItemExists, h]

theorem processedItemExists_triple_key_witness :
    (100 : Time) ≠ 200 ∧
    ((processedItemExists [⟨"g1", 7, 100⟩] ⟨"g1", 7, 100⟩ = true ↔
       ∃ r ∈ [(⟨"g1", 7, 100⟩ : ProcessedItem)], r.guid = "g1" ∧ r.publicationUUID = 7 ∧
         r.publicationDate = 100) ∧
     processedItemExists [⟨"g1", 7, 100⟩] ⟨"g1", 7, 200⟩ = false) :=
  ⟨by decide, processedItemExists_triple_key [⟨"g1", 7, 100⟩] ⟨"g1", 7, 100⟩ "g1" 7 100 200
    (by decide)⟩

/-- C3 counterexample: saving `(g1, feed 2, 7)` over a store holding
`(g1, feed 1, 5)` rewrites the feed-1 row in place (its pubDate becomes 7)
and creates no row for feed 2 — the upsert conflicts on `guid` alone. -/
theorem saveProcessedItem_cross_feed_cex :
    saveProcessedItem [⟨"g1", 1, 5⟩] ⟨"g1", 2, 7⟩ = [⟨"g1", 1, 7⟩] ∧
    (⟨"g1", 1, 5⟩ : ProcessedItem) ∉ saveProcessedItem [⟨"g1", 1, 5⟩] ⟨"g1", 2, 7⟩ ∧
    ¬ ∃ r ∈ saveProcessedItem [⟨"g1", 1, 5⟩] ⟨"g1", 2, 7⟩, r.publicationUUID = 2 := by
  decide

/-- C3 (amended): `SaveProcessedItem` is an upsert keyed by `guid` alone:
rows with any other guid are untouched, every row carrying the saved guid gets
its publication_date overwritten in place (keeping its original feed UUID),
a row with the same guid under a different feed is therefore modified rather
than left unchanged, and no new row is added when the guid already exists. -/
theorem saveProcessedItem_guid_key (tbl : List ProcessedItem) (i : ProcessedItem) :
    (((saveProcessedItem tbl i).filter fun r => r.guid != i.guid) =
      tbl.filter fun r => r.guid != i.guid) ∧
    (∀ r ∈ saveProcessedItem tbl i, r.guid = i.guid →
      r.publicationDate = i.publicationDate) ∧
    (∀ r ∈ tbl, r.guid = i.guid →
      ({ r with publicationDate := i.publicationDate } : ProcessedItem) ∈
        saveProcessedItem tbl i) ∧
    ((saveProcessedItem tbl i).length =
      if tbl.any (fun r => r.guid == i.guid) then tbl.length else tbl.length + 1) :=
  ⟨save_keeps_other tbl i, save_dates tbl i, save_mem_update tbl i, save_length tbl i⟩

theorem saveProcessedItem_guid_key_witness :
    (((saveProcessedItem [⟨"g1", 1, 5⟩] ⟨"g1", 2, 7⟩).filter fun r => r.guid != "g1") =
      List.filter (fun r => r.guid != "g1") [(⟨"g1", 1, 5⟩ : ProcessedItem)]) ∧
    (∀ r ∈ saveProcessedItem [⟨"g1", 1, 5⟩] ⟨"g1", 2, 7⟩, r.guid = "g1" →
      r.publicationDate = 7) ∧
    (∀ r ∈ [(⟨"g1", 1, 5⟩ : ProcessedItem)], r.guid = "g1" →
      ({ r with publicationDate := 7 } : ProcessedItem) ∈
        saveProcessedItem [⟨"g1", 1, 5⟩] ⟨"g1", 2, 7⟩) ∧
    ((saveProcessedItem [⟨"g1", 1, 5⟩] ⟨"g1", 2, 7⟩).length =
      if List.any [(⟨"g1", 1, 5⟩ : ProcessedItem)] (fun r => r.guid == "g1") then
        List.length [(⟨"g1", 1, 5⟩ : ProcessedItem)]
      else List.length [(⟨"g1", 1, 5⟩ : ProcessedItem)] + 1) :=
  saveProcessedItem_guid_key [⟨"g1", 1, 5⟩] ⟨"g1", 2, 7⟩

/-- C4 counterexample: starting from a store holding guid `g1` under feed 2,
saving `(g1, feed 1, 10)` and then `(g1, feed 1, 20)` leaves the single feed-2
row (with date 20) and no record at all for `(g1, feed 1)` — not "exactly one
stored record for that (guid, feedID)". -/
theorem saveProcessedItem_twice_cross_feed_cex :
    saveProcessedItem (saveProcessedItem [⟨"g1", 2, 0⟩] ⟨"g1", 1, 10⟩) ⟨"g1", 1, 20⟩ =
      [⟨"g1", 2, 20⟩] ∧
    ¬ ∃ r ∈ saveProcessedItem (saveProcessedItem [⟨"g1", 2, 0⟩] ⟨"g1", 1, 10⟩) ⟨"g1", 1, 20⟩,
        r.guid = "g1" ∧ r.publicationUUID = 1 := by
  decide

/-- C4 (amended): over any store satisfying the guid PRIMARY KEY invariant,
saving `(g, u, d1)` then `(g, u, d2)` leaves exactly one stored record with
guid `g`, every record with that guid carries the latest date `d2`, and when
the store had no prior row with that guid the surviving record is exactly
`(g, u, d2)`. -/
theorem saveProcessedItem_twice_latest (tbl : List ProcessedItem) (g : GUID) (u : UUID)
    (d1 d2 : Time) (h : guidUnique tbl) :
    ((saveProcessedItem (saveProcessedItem tbl ⟨g, u, d1⟩) ⟨g, u, d2⟩).countP
        (fun r => r.guid == g) = 1) ∧
    (∀ r ∈ saveProcessedItem (saveProcessedItem tbl ⟨g, u, d1⟩) ⟨g, u, d2⟩,
      r.guid = g → r.publicationDate = d2) ∧
    ((∀ r ∈ tbl, r.guid ≠ g) →
      saveProcessedItem (saveProcessedItem tbl ⟨g, u, d1⟩) ⟨g, u, d2⟩ = tbl ++ [⟨g, u, d2⟩]) := by
  refine ⟨?_, save_dates _ _, ?_⟩
  · have h1 := save_countP tbl ⟨g, u, d1⟩
    have h2 := save_countP (saveProcessedItem tbl ⟨g, u, d1⟩) ⟨g, u, d2⟩
    have hle := countP_guid_le_one tbl g h
    simp only at h1 h2
    omega
  · intro hfresh
    rw [save_fresh tbl ⟨g, u, d1⟩ hfresh]
    unfold saveProcessedItem
    rw [if_pos (by simp)]
    exact map_update_fresh tbl g u d1 d2 hfresh

theorem saveProcessedItem_twice_latest_witness :
    guidUnique [⟨"other", 3, 1⟩] ∧
    (((saveProcessedItem (saveProcessedItem [⟨"other", 3, 1⟩] ⟨"g1", 1, 10⟩) ⟨"g1", 1, 20⟩).countP
        (fun r => r.guid == "g1") = 1) ∧
     (∀ r ∈ saveProcessedItem (saveProcessedItem [⟨"other", 3, 1⟩] ⟨"g1", 1, 10⟩) ⟨"g1", 1, 20⟩,
        r.guid = "g1" → r.publicationDate = 20) ∧
     ((∀ r ∈ [(⟨"other", 3, 1⟩ : ProcessedItem)], r.guid ≠ "g1") →
        saveProcessedItem (saveProcessedItem [⟨"other", 3, 1⟩] ⟨"g1", 1, 10⟩) ⟨"g1", 1, 20⟩ =
          [⟨"other", 3, 1⟩] ++ [⟨"g1", 1, 20⟩])) :=
  ⟨by simp [guidUnique], saveProcessedItem_twice_latest [⟨"other", 3, 1⟩] "g1" 1 10 20
    (by simp [guidUnique])⟩

/-- C7 counterexample: a freshly registered feed (etag column NULL) gets
`"noetag"` back from `GetFeedHTTPMetadataByPublicationUUID` (the query
COALESCEs NULL to the sentinel `'noetag'`), not the empty string, and since
`"noetag"` is non-empty the next fetch sets `If-None-Match: noetag`. -/
theorem getFeedHTTPMetadata_noetag_cex :
    getFeedHTTPMetadataByPublicationUUID [⟨7, "http://x/feed.xml", "en", none, none⟩] 7 =
      some ⟨7, "noetag", 0⟩ ∧
    (getFeedHTTPMetadataByPublicationUUID [⟨7, "http://x/feed.xml", "en", none, none⟩] 7).map
      (fun m => m.etag) ≠ some "" ∧
    ifNoneMatchHeader "noetag" = some "noetag" := by
  decide

/-- C7 (amended): for a feed whose stored etag column is NULL (no cache
validator ever saved), `GetFeedHTTPMetadataByPublicationUUID` returns the
sentinel string "noetag" and the next conditional fetch therefore sends an
`If-None-Match: noetag` header; the header is omitted exactly when the
returned etag is the empty string (which is what gets stored after a
successful fetch whose response carried no ETag header). -/
theorem getFeedHTTPMetadata_noetag_sentinel (feeds : List FeedRow) (u : UUID)
    (r : FeedRow) (hfind : findFeedRow feeds u = some r) (hnull : r.etag = none) :
    getFeedHTTPMetadataByPublicationUUID feeds u =
      some ⟨r.publicationUUID, "noetag", r.lastModified.getD 0⟩ ∧
    ifNoneMatchHeader "noetag" = some "noetag" ∧
    (∀ s : String, ifNoneMatchHeader s = none ↔ s = "") := by
  refine ⟨?_, by decide, ?_⟩
  · simp [getFeedHTTPMetadataByPublicationUUID, hfind, hnull]
  · intro s
    by_cases hs : s = "" <;> simp [ifNoneMatchHeader, hs]

theorem getFeedHTTPMetadata_noetag_sentinel_witness :
    findFeedRow [⟨7, "http://x/feed.xml", "en", none, none⟩] 7 =
      some ⟨7, "http://x/feed.xml", "en", none, none⟩ ∧
    (⟨7, "http://x/feed.xml", "en", none, none⟩ : FeedRow).etag = none ∧
    (getFeedHTTPMetadataByPublicationUUID [⟨7, "http://x/feed.xml", "en", none, none⟩] 7 =
      some ⟨7, "noetag", 0⟩ ∧
     ifNoneMatchHeader "noetag" = some "noetag" ∧
     (∀ s : String, ifNoneMatchHeader s = none ↔ s = "")) :=
  ⟨by decide, rfl, getFeedHTTPMetadata_noetag_sentinel
    [⟨7, "http://x/feed.xml", "en", none, none⟩] 7
    ⟨7, "http://x/feed.xml", "en", none, none⟩ (by decide) rfl⟩

/-- C8: dispatching a well-formed envelope whose kind tag is neither
FeedsUpdateOne (0) nor FeedsUpdateAll (1) returns the distinct unknown-kind
error (not an envelope or payload decode failure), leaves the store unchanged
and performs no external calls at all (empty effect trace: no repository
call, no fetch, no publish). -/
theorem process_unknown_kind_no_side_effects (flt : Faults) (http : HTTPWorld)
    (st : StoreState) (k : Nat) (payload : PayloadDecode) (hk : 2 ≤ k) :
    Process flt http st (.wellFormed (some k) payload) =
      ⟨.err (.unknownKind k), st, []⟩ ∧
    (∀ j : Nat, ProcessError.unknownKind j ≠ ProcessError.malformedEnvelope ∧
      ProcessError.unknownKind j ≠ ProcessError.payloadDecodeFailure) := by
  constructor
  · have h0 : (k == FeedsUpdateOne) = false := by
      simp [FeedsUpdateOne]
      omega
    have h1 : (k == FeedsUpdateAll) = false := by
      simp [FeedsUpdateAll]
      omega
    simp [Process, h0, h1]
  · intro j
    exact ⟨by simp, by simp⟩

theorem process_unknown_kind_no_side_effects_witness :
    2 ≤ 5 ∧
    (Process noFaults .transportError ⟨[], []⟩ (.wellFormed (some 5) .failure) =
      ⟨.err (.unknownKind 5), ⟨[], []⟩, []⟩ ∧
     (∀ j : Nat, ProcessError.unknownKind j ≠ ProcessError.malformedEnvelope ∧
       ProcessError.unknownKind j ≠ ProcessError.payloadDecodeFailure)) :=
  ⟨by decide, process_unknown_kind_no_side_effects noFaults .transportError ⟨[], []⟩ 5 .failure
    (by decide)⟩

/-- C10: an envelope whose JSON lacks the "type" field is dispatched exactly
like one with the explicit FeedsUpdateOne tag (the Go zero value of
`MessageType`): it is not rejected as malformed or unknown, and when the
payload decodes to a publication_uuid the single-feed refresh runs for it. -/
theorem process_missing_type_defaults_refresh_one (flt : Faults) (http : HTTPWorld)
    (st : StoreState) (payload : PayloadDecode) (u : UUID) :
    Process flt http st (.wellFormed none payload) =
      Process flt http st (.wellFormed (some FeedsUpdateOne) payload) ∧
    (Process flt http st (.wellFormed none payload)).result ≠ .err .malformedEnvelope ∧
    (∀ k, (Process flt http st (.wellFormed none payload)).result ≠
      .err (.unknownKind k)) ∧
    Process flt http st (.wellFormed none (.oneMsg u)) =
      ⟨liftRefresh (refreshFeed flt http st u).result, (refreshFeed flt http st u).state,
        (refreshFeed flt http st u).effects⟩ := by
  refine ⟨rfl, ?_, ?_, rfl⟩
  · cases payload with
    | failure => simp [Process, FeedsUpdateOne]
    | oneMsg v =>
      simp only [Process]
      cases h : (refreshFeed flt http st v).result <;>
        simp [liftRefresh, FeedsUpdateOne]
  · intro k
    cases payload with
    | failure => simp [Process, FeedsUpdateOne]
    | oneMsg v =>
      simp only [Process]
      cases h : (refreshFeed flt http st v).result <;>
        simp [liftRefresh, FeedsUpdateOne]

theorem process_missing_type_defaults_refresh_one_witness :
    Process noFaults .transportError ⟨[], []⟩ (.wellFormed none (.oneMsg 7)) =
      Process noFaults .transportError ⟨[], []⟩ (.wellFormed (some FeedsUpdateOne) (.oneMsg 7)) ∧
    (Process noFaults .transportError ⟨[], []⟩ (.wellFormed none (.oneMsg 7))).result ≠
      .err .malformedEnvelope ∧
    (∀ k, (Process noFaults .transportError ⟨[], []⟩ (.wellFormed none (.oneMsg 7))).result ≠
      .err (.unknownKind k)) ∧
    Process noFaults .transportError ⟨[], []⟩ (.wellFormed none (.oneMsg 7)) =
      ⟨liftRefresh (refreshFeed noFaults .transportError ⟨[], []⟩ 7).result,
        (refreshFeed noFaults .transportError ⟨[], []⟩ 7).state,
        (refreshFeed noFaults .transportError ⟨[], []⟩ 7).effects⟩ :=
  process_missing_type_defaults_refresh_one noFaults .transportError ⟨[], []⟩ (.oneMsg 7) 7

/-- C5: for a registered feed, when the HTTP response is a 304 the refresh
terminates successfully, the store state is exactly as before (no SaveEntry,
no SaveFetchMetadata), and the effect trace holds no store write and no
downstream publish. -/
theorem refreshFeed_not_modified_no_writes (flt : Faults) (st : StoreState) (u : UUID)
    (body : ParseResult) (etagHeader : String) (lmHeader : Option (Option Time))
    (m : FeedHTTPMetadata)
    (hg : flt.getFeedFault = false) (hgm : flt.getMetadataFault = false)
    (hm : getFeedHTTPMetadataByPublicationUUID st.feeds u = some m) :
    (refreshFeed flt (.response 304 body etagHeader lmHeader) st u).result = .ok ∧
    (refreshFeed flt (.response 304 body etagHeader lmHeader) st u).state = st ∧
    ∀ e ∈ (refreshFeed flt (.response 304 body etagHeader lmHeader) st u).effects,
      e.isStoreWrite = false ∧ e.isPublish = false := by
  obtain ⟨fr, hr, hfr⟩ :=
    Option.map_eq_some'.mp (by simpa [getFeedHTTPMetadataByPublicationUUID] using hm)
  have hgb : getByPublicationUUID st.feeds u =
      some ⟨fr.publicationUUID, fr.url, fr.languageCode⟩ := by
    simp [getByPublicationUUID, hr]
  have houtcome : refreshFeed flt (.response 304 body etagHeader lmHeader) st u =
      ⟨.ok, st, [.getFeed u, .getMetadata u,
        .fetchCall fr.url (ifNoneMatchHeader m.etag) m.lastModified]⟩ := by
    simp [refreshFeed, hg, hgm, hgb, hm, readFeedFromURL]
  rw [houtcome]
  refine ⟨rfl, rfl, ?_⟩
  intro e he
  simp only [List.mem_cons, List.not_mem_nil, or_false] at he
  rcases he with rfl | rfl | rfl <;> exact ⟨rfl, rfl⟩

theorem refreshFeed_not_modified_no_writes_witness :
    noFaults.getFeedFault = false ∧ noFaults.getMetadataFault = false ∧
    getFeedHTTPMetadataByPublicationUUID
      (StoreState.feeds ⟨[⟨7, "http://x/feed.xml", "en", some 42, some "abc"⟩], []⟩) 7 =
      some ⟨7, "abc", 42⟩ ∧
    ((refreshFeed noFaults (.response 304 .parseError "" none)
        ⟨[⟨7, "http://x/feed.xml", "en", some 42, some "abc"⟩], []⟩ 7).result = .ok ∧
     (refreshFeed noFaults (.response 304 .parseError "" none)
        ⟨[⟨7, "http://x/feed.xml", "en", some 42, some "abc"⟩], []⟩ 7).state =
       ⟨[⟨7, "http://x/feed.xml", "en", some 42, some "abc"⟩], []⟩ ∧
     ∀ e ∈ (refreshFeed noFaults (.response 304 .parseError "" none)
        ⟨[⟨7, "http://x/feed.xml", "en", some 42, some "abc"⟩], []⟩ 7).effects,
       e.isStoreWrite = false ∧ e.isPublish = false) :=
  ⟨rfl, rfl, by decide,
    refreshFeed_not_modified_no_writes noFaults
      ⟨[⟨7, "http://x/feed.xml", "en", some 42, some "abc"⟩], []⟩ 7 .parseError "" none
      ⟨7, "abc", 42⟩ rfl rfl (by decide)⟩

/-- C9: after a successful 2xx fetch whose response carries neither a
Last-Modified nor an ETag header, the refresh succeeds and its final metadata
save writes the empty etag and the zero timestamp, overwriting whatever
validators were stored for the feed before. -/
theorem refreshFeed_overwrites_validators (flt : Faults) (st : StoreState) (u : UUID)
    (items : List Item) (m : FeedHTTPMetadata)
    (hg : flt.getFeedFault = false) (hgm : flt.getMetadataFault = false)
    (hs : flt.saveMetadataFault = false)
    (hm : getFeedHTTPMetadataByPublicationUUID st.feeds u = some m) :
    (refreshFeed flt (.response 200 (.parsed items) "" none) st u).result = .ok ∧
    Effect.saveMetadata ⟨m.publicationUUID, "", 0⟩ ∈
      (refreshFeed flt (.response 200 (.parsed items) "" none) st u).effects ∧
    ∀ r ∈ (refreshFeed flt (.response 200 (.parsed items) "" none) st u).state.feeds,
      r.publicationUUID = m.publicationUUID → r.etag = some "" ∧ r.lastModified = some 0 := by
  obtain ⟨fr, hr, hfr⟩ :=
    Option.map_eq_some'.mp (by simpa [getFeedHTTPMetadataByPublicationUUID] using hm)
  have hgb : getByPublicationUUID st.feeds u =
      some ⟨fr.publicationUUID, fr.url, fr.languageCode⟩ := by
    simp [getByPublicationUUID, hr]
  have hfetch : readFeedFromURL (.response 200 (.parsed items) "" none) =
      .ok ⟨items, "", 0⟩ := by
    simp [readFeedFromURL]
  refine ⟨?_, ?_, ?_⟩
  · simp [refreshFeed, hg, hgm, hgb, hm, hfetch, hs]
  · simp [refreshFeed, hg, hgm, hgb, hm, hfetch, hs]
  · intro r hrmem hru
    have hfeeds : (refreshFeed flt (.response 200 (.parsed items) "" none) st u).state.feeds =
        saveFeedHTTPMetadata st.feeds ⟨m.publicationUUID, "", 0⟩ := by
      simp [refreshFeed, hg, hgm, hgb, hm, hfetch, hs]
    rw [hfeeds] at hrmem
    exact saveFeedHTTPMetadata_sets st.feeds ⟨m.publicationUUID, "", 0⟩ r hrmem hru

theorem refreshFeed_overwrites_validators_witness :
    noFaults.getFeedFault = false ∧ noFaults.getMetadataFault = false ∧
    noFaults.saveMetadataFault = false ∧
    getFeedHTTPMetadataByPublicationUUID
      (StoreState.feeds ⟨[⟨7, "http://x/feed.xml", "en", some 42, some "abc"⟩], []⟩) 7 =
      some ⟨7, "abc", 42⟩ ∧
    ((refreshFeed noFaults (.response 200 (.parsed []) "" none)
        ⟨[⟨7, "http://x/feed.xml", "en", some 42, some "abc"⟩], []⟩ 7).result = .ok ∧
     Effect.saveMetadata ⟨7, "", 0⟩ ∈
       (refreshFeed noFaults (.response 200 (.parsed []) "" none)
         ⟨[⟨7, "http://x/feed.xml", "en", some 42, some "abc"⟩], []⟩ 7).effects ∧
     ∀ r ∈ (refreshFeed noFaults (.response 200 (.parsed []) "" none)
         ⟨[⟨7, "http://x/feed.xml", "en", some 42, some "abc"⟩], []⟩ 7).state.feeds,
       r.publicationUUID = 7 → r.etag = some "" ∧ r.lastModified = some 0) :=
  ⟨rfl, rfl, rfl, by decide,
    refreshFeed_overwrites_validators noFaults
      ⟨[⟨7, "http://x/feed.xml", "en", some 42, some "abc"⟩], []⟩ 7 []
      ⟨7, "abc", 42⟩ rfl rfl rfl (by decide)⟩

/-- C2: partial-failure isolation. For a registered feed whose fetch
succeeds, the refresh always ends `.ok` and the final metadata save call is
always made; at the item level, a failed downstream publish leaves the table
untouched and makes no SaveProcessedItem call for that item, a healthy new
item is published and saved, and the loop always continues with the remaining
items after each step. -/
theorem refreshFeed_partial_failure_isolation (flt : Faults) (http : HTTPWorld)
    (st : StoreState) (u : UUID) (m : FeedHTTPMetadata) (f : RSSFeed)
    (hg : flt.getFeedFault = false) (hgm : flt.getMetadataFault = false)
    (hs : flt.saveMetadataFault = false)
    (hm : getFeedHTTPMetadataByPublicationUUID st.feeds u = some m)
    (hf : readFeedFromURL http = .ok f) :
    (refreshFeed flt http st u).result = .ok ∧
    Effect.saveMetadata ⟨m.publicationUUID, f.etag, f.lastModified⟩ ∈
      (refreshFeed flt http st u).effects ∧
    (∀ feed idx item tbl p, flt.publishFault idx = true → flt.existsFault idx = false →
      effectivePublished item = some p →
      processedItemExists tbl ⟨item.guid, feed.publicationUUID, p⟩ = false →
      processItem flt feed idx item tbl =
        (tbl, [Effect.existsQuery ⟨item.guid, feed.publicationUUID, p⟩,
          Effect.publishItem feed.publicationUUID item.title item.description item.content
            item.link feed.languageCode p])) ∧
    (∀ feed idx item tbl p, flt.publishFault idx = false → flt.existsFault idx = false →
      flt.saveItemFault idx = false → effectivePublished item = some p →
      processedItemExists tbl ⟨item.guid, feed.publicationUUID, p⟩ = false →
      processItem flt feed idx item tbl =
        (saveProcessedItem tbl ⟨item.guid, feed.publicationUUID, p⟩,
          [Effect.existsQuery ⟨item.guid, feed.publicationUUID, p⟩,
           Effect.publishItem feed.publicationUUID item.title item.description item.content
             item.link feed.languageCode p,
           Effect.saveItem ⟨item.guid, feed.publicationUUID, p⟩])) ∧
    (∀ feed item rest idx tbl,
      processItems flt feed (item :: rest) idx tbl =
        ((processItems flt feed rest (idx + 1) (processItem flt feed idx item tbl).1).1,
          (processItem flt feed idx item tbl).2 ++
            (processItems flt feed rest (idx + 1) (processItem flt feed idx item tbl).1).2)) := by
  obtain ⟨fr, hr, hfr⟩ :=
    Option.map_eq_some'.mp (by simpa [getFeedHTTPMetadataByPublicationUUID] using hm)
  have hgb : getByPublicationUUID st.feeds u =
      some ⟨fr.publicationUUID, fr.url, fr.languageCode⟩ := by
    simp [getByPublicationUUID, hr]
  refine ⟨?_, ?_, ?_, ?_, ?_⟩
  · simp [refreshFeed, hg, hgm, hgb, hm, hf, hs]
  · simp [refreshFeed, hg, hgm, hgb, hm, hf, hs]
  · intro feed idx item tbl p hpub hex hp hnx
    simp [processItem, hp, hex, hnx, hpub]
  · intro feed idx item tbl p hpub hex hsv hp hnx
    simp [processItem, hp, hex, hnx, hpub, hsv]
  · intro feed item rest idx tbl
    rfl

theorem refreshFeed_partial_failure_isolation_witness :
    (⟨false, false, false, fun _ => false, fun k => k == 1, fun _ => false, false⟩ :
        Faults).getFeedFault = false ∧
    (⟨false, false, false, fun _ => false, fun k => k == 1, fun _ => false, false⟩ :
        Faults).getMetadataFault = false ∧
    (⟨false, false, false, fun _ => false, fun k => k == 1, fun _ => false, false⟩ :
        Faults).saveMetadataFault = false ∧
    getFeedHTTPMetadataByPublicationUUID
      (StoreState.feeds ⟨[⟨7, "http://x/feed.xml", "en", some 42, some "abc"⟩], []⟩) 7 =
      some ⟨7, "abc", 42⟩ ∧
    readFeedFromURL (.response 200 (.parsed
      [⟨"g1", "t1", "d1", "c1", "l1", some 10, none⟩,
       ⟨"g2", "t2", "d2", "c2", "l2", some 11, none⟩,
       ⟨"g3", "t3", "d3", "c3", "l3", some 12, none⟩]) "def" (some (some 5))) =
      .ok ⟨[⟨"g1", "t1", "d1", "c1", "l1", some 10, none⟩,
        ⟨"g2", "t2", "d2", "c2", "l2", some 11, none⟩,
        ⟨"g3", "t3", "d3", "c3", "l3", some 12, none⟩], "def", 5⟩ ∧
    ((refreshFeed
        ⟨false, false, false, fun _ => false, fun k => k == 1, fun _ => false, false⟩
        (.response 200 (.parsed
          [⟨"g1", "t1", "d1", "c1", "l1", some 10, none⟩,
           ⟨"g2", "t2", "d2", "c2", "l2", some 11, none⟩,
           ⟨"g3", "t3", "d3", "c3", "l3", some 12, none⟩]) "def" (some (some 5)))
        ⟨[⟨7, "http://x/feed.xml", "en", some 42, some "abc"⟩], []⟩ 7).result = .ok ∧
     Effect.saveMetadata ⟨7, "def", 5⟩ ∈
       (refreshFeed
         ⟨false, false, false, fun _ => false, fun k => k == 1, fun _ => false, false⟩
         (.response 200 (.parsed
           [⟨"g1", "t1", "d1", "c1", "l1", some 10, none⟩,
            ⟨"g2", "t2", "d2", "c2", "l2", some 11, none⟩,
            ⟨"g3", "t3", "d3", "c3", "l3", some 12, none⟩]) "def" (some (some 5)))
         ⟨[⟨7, "http://x/feed.xml", "en", some 42, some "abc"⟩], []⟩ 7).effects ∧
     (∀ feed idx item tbl p,
      (⟨false, false, false, fun _ => false, fun k => k == 1, fun _ => false, false⟩ :
        Faults).publishFault idx = true →
      (⟨false, false, false, fun _ => false, fun k => k == 1, fun _ => false, false⟩ :
        Faults).existsFault idx = false →
      effectivePublished item = some p →
      processedItemExists tbl ⟨item.guid, feed.publicationUUID, p⟩ = false →
      processItem
        ⟨false, false, false, fun _ => false, fun k => k == 1, fun _ => false, false⟩
        feed idx item tbl =
        (tbl, [Effect.existsQuery ⟨item.guid, feed.publicationUUID, p⟩,
          Effect.publishItem feed.publicationUUID item.title item.description item.content
            item.link feed.languageCode p])) ∧
     (∀ feed idx item tbl p,
      (⟨false, false, false, fun _ => false, fun k => k == 1, fun _ => false, false⟩ :
        Faults).publishFault idx = false →
      (⟨false, false, false, fun _ => false, fun k => k == 1, fun _ => false, false⟩ :
        Faults).existsFault idx = false →
      (⟨false, false, false, fun _ => false, fun k => k == 1, fun _ => false, false⟩ :
        Faults).saveItemFault idx = false →
      effectivePublished item = some p →
      processedItemExists tbl ⟨item.guid, feed.publicationUUID, p⟩ = false →
      processItem
        ⟨false, false, false, fun _ => false, fun k => k == 1, fun _ => false, false⟩
        feed idx item tbl =
        (saveProcessedItem tbl ⟨item.guid, feed.publicationUUID, p⟩,
          [Effect.existsQuery ⟨item.guid, feed.publicationUUID, p⟩,
           Effect.publishItem feed.publicationUUID item.title item.description item.content
             item.link feed.languageCode p,
           Effect.saveItem ⟨item.guid, feed.publicationUUID, p⟩])) ∧
     (∀ feed item rest idx tbl,
      processItems
        ⟨false, false, false, fun _ => false, fun k => k == 1, fun _ => false, false⟩
        feed (item :: rest) idx tbl =
        ((processItems
            ⟨false, false, false, fun _ => false, fun k => k == 1, fun _ => false, false⟩
            feed rest (idx + 1)
            (processItem
              ⟨false, false, false, fun _ => false, fun k => k == 1, fun _ => false, false⟩
              feed idx item tbl).1).1,
          (processItem
            ⟨false, false, false, fun _ => false, fun k => k == 1, fun _ => false, false⟩
            feed idx item tbl).2 ++
            (processItems
              ⟨false, false, false, fun _ => false, fun k => k == 1, fun _ => false, false⟩
              feed rest (idx + 1)
              (processItem
                ⟨false, false, false, fun _ => false, fun k => k == 1, fun _ => false, false⟩
                feed idx item tbl).1).2))) :=
  ⟨rfl, rfl, rfl, by decide, rfl,
    refreshFeed_partial_failure_isolation
      ⟨false, false, false, fun _ => false, fun k => k == 1, fun _ => false, false⟩
      (.response 200 (.parsed
        [⟨"g1", "t1", "d1", "c1", "l1", some 10, none⟩,
         ⟨"g2", "t2", "d2", "c2", "l2", some 11, none⟩,
         ⟨"g3", "t3", "d3", "c3", "l3", some 12, none⟩]) "def" (some (some 5)))
      ⟨[⟨7, "http://x/feed.xml", "en", some 42, some "abc"⟩], []⟩ 7 ⟨7, "abc", 42⟩
      ⟨[⟨"g1", "t1", "d1", "c1", "l1", some 10, none⟩,
        ⟨"g2", "t2", "d2", "c2", "l2", some 11, none⟩,
        ⟨"g3", "t3", "d3", "c3", "l3", some 12, none⟩], "def", 5⟩
      rfl rfl rfl (by decide) rfl⟩

/-- C6: the effective publication timestamp is the item's published time when
present, otherwise its updated time; an item with neither is excluded from
processing entirely (no query, no publish, no save, table unchanged) while
the loop simply moves on to the remaining items; and whenever the effective
timestamp is `p`, every external call made for the item (dedup query,
downstream publish, save) carries exactly `p`. -/
theorem effective_timestamp_rule (flt : Faults) (feed : Feed) (idx : Nat) (item : Item)
    (tbl : List ProcessedItem) (rest : List Item) :
    (∀ t, item.publishedParsed = some t → effectivePublished item = some t) ∧
    (item.publishedParsed = none → effectivePublished item = item.updatedParsed) ∧
    (effectivePublished item = none →
      processItem flt feed idx item tbl = (tbl, []) ∧
      processItems flt feed (item :: rest) idx tbl =
        processItems flt feed rest (idx + 1) tbl) ∧
    (∀ p, effectivePublished item = some p →
      ∀ e ∈ (processItem flt feed idx item tbl).2,
        e = .existsQuery ⟨item.guid, feed.publicationUUID, p⟩ ∨
        e = .publishItem feed.publicationUUID item.title item.description item.content
          item.link feed.languageCode p ∨
        e = .saveItem ⟨item.guid, feed.publicationUUID, p⟩) := by
  refine ⟨?_, ?_, ?_, ?_⟩
  · intro t ht
    simp [effectivePublished, ht]
  · intro h
    cases hu : item.updatedParsed <;> simp [effectivePublished, h, hu]
  · intro h
    refine ⟨by simp [processItem, h], ?_⟩
    simp [processItems, processItem, h]
  · intro p hp e he
    unfold processItem at he
    rw [hp] at he
    by_cases h1 : flt.existsFault idx = true
    · simp [h1] at he
      simp [he]
    · by_cases h2 : processedItemExists tbl ⟨item.guid, feed.publicationUUID, p⟩ = true
      · simp [h1, h2] at he
        simp [he]
      · by_cases h3 : flt.publishFault idx = true
        · simp [h1, h2, h3] at he
          rcases he with rfl | rfl <;> simp
        · by_cases h4 : flt.saveItemFault idx = true
          · simp [h1, h2, h3, h4] at he
            rcases he with rfl | rfl | rfl <;> simp
          · simp [h1, h2, h3, h4] at he
            rcases he with rfl | rfl | rfl <;> simp

theorem effective_timestamp_rule_witness :
    ((∀ t, Item.publishedParsed ⟨"g1", "t", "d", "c", "l", some 10, some 20⟩ = some t →
      effectivePublished ⟨"g1", "t", "d", "c", "l", some 10, some 20⟩ = some t) ∧
    (Item.publishedParsed ⟨"g1", "t", "d", "c", "l", some 10, some 20⟩ = none →
      effectivePublished ⟨"g1", "t", "d", "c", "l", some 10, some 20⟩ =
        Item.updatedParsed ⟨"g1", "t", "d", "c", "l", some 10, some 20⟩) ∧
    (effectivePublished ⟨"g1", "t", "d", "c", "l", some 10, some 20⟩ = none →
      processItem noFaults ⟨7, "u", "en"⟩ 0 ⟨"g1", "t", "d", "c", "l", some 10, some 20⟩ [] =
        ([], []) ∧
      processItems noFaults ⟨7, "u", "en"⟩
          [⟨"g1", "t", "d", "c", "l", some 10, some 20⟩] 0 [] =
        processItems noFaults ⟨7, "u", "en"⟩ [] 1 []) ∧
    (∀ p, effectivePublished ⟨"g1", "t", "d", "c", "l", some 10, some 20⟩ = some p →
      ∀ e ∈ (processItem noFaults ⟨7, "u", "en"⟩ 0
          ⟨"g1", "t", "d", "c", "l", some 10, some 20⟩ []).2,
        e = .existsQuery ⟨"g1", 7, p⟩ ∨
        e = .publishItem 7 "t" "d" "c" "l" "en" p ∨
        e = .saveItem ⟨"g1", 7, p⟩)) :=
  effective_timestamp_rule noFaults ⟨7, "u", "en"⟩ 0
    ⟨"g1", "t", "d", "c", "l", some 10, some 20⟩ [] []

end RSSFeeds
